import Mathlib

/-!
Verification of the double-entry bank ledger (PaulBabatuyi/double-entry-bank-Go).

This file shallowly embeds the ledger transaction engine
(`internal/service` LedgerService: Deposit, Withdraw, Transfer,
ReconcileAccount, validatePositiveAmount), the store adapters backed by the
sqlc queries (`GetAccount`, `GetAccountForUpdate`, `GetSettlementAccount`,
`CreateEntry`, `UpdateAccountBalance`, `GetAccountBalance`), the schema
constraints of the `entries` table (migration 000003, `check_single_side`),
and the transactional unit of work (`internal/db/store.go` ExecTx).

Monetary values use the shopspring/decimal library in Go; we embed its
arbitrary-precision decimal as a pair of an integer coefficient and an
integer exponent (numeric value = value * 10 ^ exp), together with its
string parsing (`decimal.NewFromString`), comparison (`Cmp` via rescaling
to the smaller exponent), and 4-place rounding (`StringFixed(4)`, which is
`Round(4)`: truncate to 5 places, then round half away from zero).
-/

namespace DoubleEntry

/-- Embedding of `shopspring/decimal.Decimal`: coefficient and exponent,
numeric value = `value * 10 ^ exp`. -/
structure Dec where
  value : Int
  exp : Int
deriving Repr, DecidableEq

/-- `decimal.Zero` is `New(0, 1)` in the Go library. -/
def decZero : Dec := ⟨0, 1⟩

/-- Rescaling multiplier used by `Decimal.Cmp`: the value of `d` expressed
at the smaller exponent `e ≤ d.exp` (exact, only multiplications). -/
def cmpVal (d : Dec) (e : Int) : Int :=
  d.value * 10 ^ (d.exp - e).toNat

/-- `Decimal.LessThan`: compare after rescaling both to the minimum exponent. -/
def decLt (a b : Dec) : Bool :=
  decide (cmpVal a (min a.exp b.exp) < cmpVal b (min a.exp b.exp))

/-- `Decimal.LessThanOrEqual`. -/
def decLe (a b : Dec) : Bool :=
  decide (cmpVal a (min a.exp b.exp) ≤ cmpVal b (min a.exp b.exp))

/-- `Decimal.Equal`: numeric equality after rescaling. -/
def decEq (a b : Dec) : Bool :=
  decide (cmpVal a (min a.exp b.exp) = cmpVal b (min a.exp b.exp))

/-- `Decimal.Neg`. -/
def decNeg (d : Dec) : Dec := ⟨-d.value, d.exp⟩

/-- Division of an integer by `10 ^ k` truncating toward zero
(`big.Int.Quo`, used by `Decimal.rescale` when dropping digits). -/
def tdivPow10 (n : Int) (k : Nat) : Int :=
  if 0 ≤ n then ((n.natAbs / 10 ^ k : Nat) : Int)
  else -((n.natAbs / 10 ^ k : Nat) : Int)

/-- `Decimal.rescale e`: the coefficient of `d` re-expressed at exponent
`e`; exact multiplication when `e ≤ d.exp`, truncation toward zero when
digits are dropped. -/
def rescaleVal (d : Dec) (e : Int) : Int :=
  if e ≤ d.exp then d.value * 10 ^ (d.exp - e).toNat
  else tdivPow10 d.value (e - d.exp).toNat

/-- The scale-4 integer recorded by `amount.StringFixed(4)`
(= `Round(4)` then print): rescale (truncating) to exponent -5, then round
half away from zero to exponent -4. Returns the coefficient at exponent -4,
i.e. the amount in minor units of 1/10000. -/
def stringFixed4 (d : Dec) : Int :=
  if d.exp = -4 then d.value
  else
    let t := rescaleVal d (-5)
    if 0 ≤ t then (((t.natAbs + 5) / 10 : Nat) : Int)
    else -(((t.natAbs + 5) / 10 : Nat) : Int)

/-- Accumulate a base-10 digit string (used for `big.Int.SetString` /
`strconv.ParseInt`); fails on the empty string or any non-digit. -/
def parseDigits (cs : List Char) : Option Nat :=
  match cs with
  | [] => none
  | _ =>
    cs.foldl
      (fun acc c =>
        match acc with
        | none => none
        | some n => if c.isDigit then some (n * 10 + (c.toNat - 48)) else none)
      (some 0)

/-- Base-10 signed integer parsing as done by `big.Int.SetString(s, 10)`
and `strconv.ParseInt(s, 10, 32)`: optional leading sign, then at least
one decimal digit. -/
def parseSignedInt (cs : List Char) : Option Int :=
  match cs with
  | '+' :: rest => (parseDigits rest).map (fun n => (n : Int))
  | '-' :: rest => (parseDigits rest).map (fun n => -(n : Int))
  | _ => (parseDigits cs).map (fun n => (n : Int))

/-- The mantissa handling of `decimal.NewFromString` after the exponent part
has been split off: at most one `'.'`, which must be followed by at least
one character; the digits around it form the coefficient and the fractional
length gives the (negative) exponent contribution. -/
def parseMantissa (cs : List Char) : Option (Int × Int) :=
  match cs.findIdx? (fun c => c == '.') with
  | none => (parseSignedInt cs).map (fun v => (v, 0))
  | some p =>
    let before := cs.take p
    let after := cs.drop (p + 1)
    if after.any (fun c => c == '.') then none
    else if after.isEmpty then none
    else (parseSignedInt (before ++ after)).map (fun v => (v, -(after.length : Int)))

/-- `decimal.NewFromString`: optional scientific-notation exponent split at
the first `e`/`E` (parsed as a signed integer), then the mantissa. -/
def newFromString (s : String) : Option Dec :=
  let cs := s.data
  match cs.findIdx? (fun c => c == 'e' || c == 'E') with
  | some i =>
    match parseSignedInt (cs.drop (i + 1)), parseMantissa (cs.take i) with
    | some e, some ve => some ⟨ve.1, e + ve.2⟩
    | _, _ => none
  | none => (parseMantissa cs).map (fun ve => Dec.mk ve.1 ve.2)

/-- The closed set of error kinds surfaced by the ledger service
(the Go sentinel errors plus the wrapped store errors, by kind). -/
inductive LErr where
  | invalidAmount
  | currencyMismatch
  | insufficientFunds
  | sameAccountTransfer
  | settlementNotFound
  | accountNotFound
  | entryCheckViolation
  | balanceMismatch (stored calculated : Int)
deriving Repr, DecidableEq

/-- `validatePositiveAmount` (service variant using shopspring decimal):
parse with `decimal.NewFromString`, reject parse failures and values
`LessThanOrEqual` zero with `ErrInvalidAmount`; otherwise return the parsed
amount. -/
def validatePositiveAmount (s : String) : Except LErr Dec :=
  match newFromString s with
  | none => Except.error LErr.invalidAmount
  | some amt =>
    if decLe amt decZero then Except.error LErr.invalidAmount
    else Except.ok amt

/-- An `accounts` row (migration 000002 / sqlc model). The `NUMERIC(19,4)`
balance column is held as its exact scale-4 integer coefficient (the balance
in units of 1/10000); the service reads it back through
`decimal.NewFromString`, which on such a column yields the decimal
`⟨balance, -4⟩`. Account ids (UUIDs in Go) are abstracted as naturals. -/
structure Account where
  id : Nat
  ownerId : Option Nat
  name : String
  balance : Int
  currency : String
  isSystem : Bool
deriving Repr, DecidableEq

/-- An `entries` row (migration 000003 / sqlc model); the `NUMERIC(19,4)`
debit and credit columns as scale-4 integers, written by the service from
`StringFixed(4)` strings. -/
structure Entry where
  accountId : Nat
  debit : Int
  credit : Int
  transactionId : Nat
  operationType : String
  description : String
deriving Repr, DecidableEq

/-- The database state threaded through the ledger operations, plus two
model devices: `nextTxId` models `uuid.New()` as a fresh-id counter, and
`lockLog` instruments the order in which `FOR UPDATE` row-lock reads
(`GetAccountForUpdate` / `GetSettlementAccountForUpdate`) are issued,
recording the locked account's id. -/
structure LedgerState where
  accounts : List Account
  entries : List Entry
  nextTxId : Nat
  lockLog : List Nat
deriving Repr, DecidableEq

/-- sqlc `GetAccount`: `SELECT * FROM accounts WHERE id = $1 LIMIT 1`. -/
def getAccount (st : LedgerState) (id : Nat) : Option Account :=
  st.accounts.find? (fun a => a.id == id)

/-- sqlc `GetAccountForUpdate`: the same row read, additionally acquiring a
`FOR UPDATE` row lock (recorded in `lockLog`). -/
def getAccountForUpdate (st : LedgerState) (id : Nat) :
    Option (Account × LedgerState) :=
  match getAccount st id with
  | none => none
  | some a => some (a, { st with lockLog := st.lockLog ++ [a.id] })

/-- The settlement-account filter of the sqlc queries:
`is_system = TRUE AND name = 'Settlement Account'`. -/
def isSettlement (a : Account) : Bool :=
  a.isSystem && a.name == "Settlement Account"

/-- sqlc `GetSettlementAccount`. -/
def getSettlementAccount (st : LedgerState) : Option Account :=
  st.accounts.find? isSettlement

/-- sqlc `GetSettlementAccountForUpdate`: settlement row read with a
`FOR UPDATE` lock. -/
def getSettlementAccountForUpdate (st : LedgerState) :
    Option (Account × LedgerState) :=
  match getSettlementAccount st with
  | none => none
  | some a => some (a, { st with lockLog := st.lockLog ++ [a.id] })

/-- The `check_single_side` CHECK constraint of the `entries` table:
`(debit > 0 AND credit = 0) OR (debit = 0 AND credit > 0)`. -/
def checkSingleSide (debit credit : Int) : Bool :=
  (decide (0 < debit) && decide (credit = 0)) ||
    (decide (debit = 0) && decide (0 < credit))

/-- sqlc `CreateEntry`: INSERT subject to the table's CHECK constraints
(`debit >= 0`, `credit >= 0`, `check_single_side`); a violating insert
fails, which aborts the surrounding transaction. -/
def createEntry (st : LedgerState) (e : Entry) : Option LedgerState :=
  if 0 ≤ e.debit ∧ 0 ≤ e.credit ∧ checkSingleSide e.debit e.credit = true then
    some { st with entries := st.entries ++ [e] }
  else none

/-- The per-row effect of `UpdateAccountBalance`: add `delta` to the
balance of the rows whose id matches. -/
def applyDelta (delta : Int) (id : Nat) (a : Account) : Account :=
  if a.id = id then { a with balance := a.balance + delta } else a

/-- sqlc `UpdateAccountBalance`:
`UPDATE accounts SET balance = balance + $1 WHERE id = $2`, the delta being
a `StringFixed(4)` string, i.e. a scale-4 integer. -/
def updateAccountBalance (st : LedgerState) (delta : Int) (id : Nat) :
    LedgerState :=
  { st with accounts := st.accounts.map (applyDelta delta id) }

/-- `LedgerService.Deposit` (decimal-arithmetic service variant). The body
runs inside `Store.ExecTx`; any error rolls the transaction back, so an
error result leaves the caller's state unchanged. -/
def deposit (st : LedgerState) (accountID : Nat) (amountStr : String) :
    Except LErr LedgerState :=
  match validatePositiveAmount amountStr with
  | Except.error e => Except.error e
  | Except.ok amount =>
    match getSettlementAccountForUpdate st with
    | none => Except.error LErr.settlementNotFound
    | some (settlement, st1) =>
      match getAccountForUpdate st1 accountID with
      | none => Except.error LErr.accountNotFound
      | some (account, st2) =>
        if account.currency ≠ settlement.currency then
          Except.error LErr.currencyMismatch
        else
          let txID := st2.nextTxId
          let x := stringFixed4 amount
          match createEntry st2
              ⟨accountID, 0, x, txID, "deposit", "External deposit"⟩ with
          | none => Except.error LErr.entryCheckViolation
          | some st3 =>
            match createEntry st3
                ⟨settlement.id, x, 0, txID, "deposit", "Deposit to account"⟩ with
            | none => Except.error LErr.entryCheckViolation
            | some st4 =>
              let st5 := updateAccountBalance st4 x accountID
              let st6 := updateAccountBalance st5 (-x) settlement.id
              Except.ok { st6 with nextTxId := st6.nextTxId + 1 }

/-- `LedgerService.Withdraw` (decimal-arithmetic service variant): like
Deposit with the sides reversed, plus the `InsufficientFunds` guard
`balanceDec.LessThan(amount)` on the lock-read balance. The
`decimal.NewFromString(account.Balance)` re-parse of the scale-4 balance
column is exact, giving `⟨account.balance, -4⟩`. -/
def withdraw (st : LedgerState) (accountID : Nat) (amountStr : String) :
    Except LErr LedgerState :=
  match validatePositiveAmount amountStr with
  | Except.error e => Except.error e
  | Except.ok amount =>
    match getSettlementAccountForUpdate st with
    | none => Except.error LErr.settlementNotFound
    | some (settlement, st1) =>
      match getAccountForUpdate st1 accountID with
      | none => Except.error LErr.accountNotFound
      | some (account, st2) =>
        if account.currency ≠ settlement.currency then
          Except.error LErr.currencyMismatch
        else if decLt ⟨account.balance, -4⟩ amount then
          Except.error LErr.insufficientFunds
        else
          let txID := st2.nextTxId
          let x := stringFixed4 amount
          match createEntry st2
              ⟨accountID, x, 0, txID, "withdrawal", "External withdrawal"⟩ with
          | none => Except.error LErr.entryCheckViolation
          | some st3 =>
            match createEntry st3
                ⟨settlement.id, 0, x, txID, "withdrawal", "Withdrawal from"⟩ with
            | none => Except.error LErr.entryCheckViolation
            | some st4 =>
              let st5 := updateAccountBalance st4 (-x) accountID
              let st6 := updateAccountBalance st5 x settlement.id
              Except.ok { st6 with nextTxId := st6.nextTxId + 1 }

/-- `LedgerService.Transfer` (decimal-arithmetic service variant): the
same-account guard runs before the transaction; inside it, the source
account is lock-read first, then the destination. -/
def transfer (st : LedgerState) (fromID toID : Nat) (amountStr : String) :
    Except LErr LedgerState :=
  match validatePositiveAmount amountStr with
  | Except.error e => Except.error e
  | Except.ok amount =>
    if fromID = toID then Except.error LErr.sameAccountTransfer
    else
      match getAccountForUpdate st fromID with
      | none => Except.error LErr.accountNotFound
      | some (fromAcc, st1) =>
        match getAccountForUpdate st1 toID with
        | none => Except.error LErr.accountNotFound
        | some (toAcc, st2) =>
          if fromAcc.currency ≠ toAcc.currency then
            Except.error LErr.currencyMismatch
          else if decLt ⟨fromAcc.balance, -4⟩ amount then
            Except.error LErr.insufficientFunds
          else
            let txID := st2.nextTxId
            let x := stringFixed4 amount
            match createEntry st2
                ⟨fromID, x, 0, txID, "transfer", "Transfer to"⟩ with
            | none => Except.error LErr.entryCheckViolation
            | some st3 =>
              match createEntry st3
                  ⟨toID, 0, x, txID, "transfer", "Transfer from"⟩ with
              | none => Except.error LErr.entryCheckViolation
              | some st4 =>
                let st5 := updateAccountBalance st4 (-x) fromID
                let st6 := updateAccountBalance st5 x toID
                Except.ok { st6 with nextTxId := st6.nextTxId + 1 }

/-- sqlc `GetAccountBalance` / `GetCalculatedBalance`:
`COALESCE(SUM(credit),0) - COALESCE(SUM(debit),0)` over the entries of one
account. -/
def calculatedBalance (st : LedgerState) (id : Nat) : Int :=
  ((st.entries.filter (fun e => e.accountId == id)).map Entry.credit).sum
    - ((st.entries.filter (fun e => e.accountId == id)).map Entry.debit).sum

/-- `LedgerService.ReconcileAccount`: returns the Go pair `(bool, error)`.
The stored balance and the SQL-computed balance are both parsed into
decimals and compared with `Equal`; on mismatch the function logs and
returns `false` together with an error that carries both values
(`"balance mismatch: stored %s, calculated %s"`). -/
def reconcileAccount (st : LedgerState) (accountID : Nat) :
    Bool × Option LErr :=
  match getAccount st accountID with
  | none => (false, some LErr.accountNotFound)
  | some account =>
    let computed := calculatedBalance st accountID
    if decEq ⟨account.balance, -4⟩ ⟨computed, -4⟩ then (true, none)
    else (false, some (LErr.balanceMismatch account.balance computed))

/-- The kinds of error returned by `Store.ExecTx`
(internal/db/store.go): the begin error, the function's own error, the
combined wrap `"tx failed: %w, rollback failed: %v"`, and the wrap
`"commit failed: %w"`. Underlying Go errors are abstracted as naturals. -/
inductive TxErr where
  | beginFailed (b : Nat)
  | fnFailed (e : Nat)
  | fnAndRollbackFailed (e rb : Nat)
  | commitFailed (c : Nat)
deriving Repr, DecidableEq

/-- Observable outcome of one `ExecTx` invocation: the returned error (if
any) and whether `tx.Commit` / `tx.Rollback` were invoked. -/
structure TxResult where
  err : Option TxErr
  commitCalled : Bool
  rollbackCalled : Bool
deriving Repr, DecidableEq

/-- `Store.ExecTx`, parameterized by the outcomes of the storage
primitives: `beginErr` / `rollbackErr` / `commitErr` are `some` exactly
when `BeginTx` / `Rollback` / `Commit` would fail, and `fnErr` is `some e`
when the supplied function returns the error `e`. -/
def execTx (beginErr fnErr rollbackErr commitErr : Option Nat) : TxResult :=
  match beginErr with
  | some b => ⟨some (TxErr.beginFailed b), false, false⟩
  | none =>
    match fnErr with
    | some e =>
      match rollbackErr with
      | some rb => ⟨some (TxErr.fnAndRollbackFailed e rb), false, true⟩
      | none => ⟨some (TxErr.fnFailed e), false, true⟩
    | none =>
      match commitErr with
      | some c => ⟨some (TxErr.commitFailed c), true, false⟩
      | none => ⟨none, true, false⟩

/-- A ledger entry is single-sided: exactly one of debit and credit is
strictly positive and the other is exactly zero. -/
def singleSided (e : Entry) : Prop :=
  (0 < e.debit ∧ e.credit = 0) ∨ (e.debit = 0 ∧ 0 < e.credit)

instance (e : Entry) : Decidable (singleSided e) := by
  unfold singleSided; infer_instance

/-- Sum of the debit amounts of the entries of transaction-group `t`. -/
def groupDebitSum (st : LedgerState) (t : Nat) : Int :=
  ((st.entries.filter (fun e => e.transactionId == t)).map Entry.debit).sum

/-- Sum of the credit amounts of the entries of transaction-group `t`. -/
def groupCreditSum (st : LedgerState) (t : Nat) : Int :=
  ((st.entries.filter (fun e => e.transactionId == t)).map Entry.credit).sum

/-- States reachable by the ledger engine: any initial state with an empty
entry log (migration 000003 creates the table empty; the accounts may be
arbitrary, including the seeded settlement row), closed under the three
money-moving operations. A failed operation rolls back and leaves the
state unchanged, so only committed results appear. -/
inductive Reachable : LedgerState → Prop where
  | init (accounts : List Account) (nextTxId : Nat) :
      Reachable ⟨accounts, [], nextTxId, []⟩
  | step_deposit {st st' : LedgerState} {a : Nat} {s : String} :
      Reachable st → deposit st a s = Except.ok st' → Reachable st'
  | step_withdraw {st st' : LedgerState} {a : Nat} {s : String} :
      Reachable st → withdraw st a s = Except.ok st' → Reachable st'
  | step_transfer {st st' : LedgerState} {a b : Nat} {s : String} :
      Reachable st → transfer st a b s = Except.ok st' → Reachable st'

/-- Sample state: the seeded settlement account plus one user account,
both in NGN, with an empty entry log. -/
def sampleState : LedgerState :=
  ⟨[⟨0, none, "Settlement Account", 0, "NGN", true⟩,
    ⟨1, some 7, "Alice", 0, "NGN", false⟩], [], 0, []⟩

/-- Sample state with two user accounts (for transfers); the settlement
account already carries a negative balance. -/
def sampleState3 : LedgerState :=
  ⟨[⟨0, none, "Settlement Account", -50000, "NGN", true⟩,
    ⟨1, some 7, "Alice", 300000, "NGN", false⟩,
    ⟨2, some 8, "Bob", 100000, "NGN", false⟩], [], 5, []⟩

/-- A state whose stored balance (5.0000) disagrees with its entry log
(credit sum 3.0000); built directly, since reconciliation is defined on
arbitrary states, not only reachable ones. -/
def mismatchState : LedgerState :=
  ⟨[⟨1, some 7, "Alice", 50000, "NGN", false⟩],
   [⟨1, 0, 30000, 0, "deposit", "External deposit"⟩], 1, []⟩

/-! ## Sanity checks of the embedding on concrete inputs -/

example : newFromString "" = none := by decide
example : newFromString "-" = none := by decide
example : newFromString "0" = some ⟨0, 0⟩ := by decide
example : newFromString "0.00" = some ⟨0, -2⟩ := by decide
example : newFromString "1.00005" = some ⟨100005, -5⟩ := by decide
example : newFromString "1.5e2" = some ⟨15, 1⟩ := by decide
example : newFromString "1." = none := by decide
example : newFromString "1.2.3" = none := by decide
example : stringFixed4 ⟨100005, -5⟩ = 10001 := by decide
example : stringFixed4 ⟨1, -5⟩ = 0 := by decide
example : stringFixed4 ⟨-15, -5⟩ = -2 := by decide
example : validatePositiveAmount "0.0000" = Except.error LErr.invalidAmount := rfl
example : validatePositiveAmount "100.0000" = Except.ok ⟨1000000, -4⟩ := rfl

example :
    (deposit sampleState 1 "100.0000").map
      (fun st => (getAccount st 1).map Account.balance) =
    Except.ok (some 1000000) := rfl

example :
    (deposit sampleState 1 "100.0000").map (fun st => reconcileAccount st 1) =
    Except.ok (true, none) := rfl

example : withdraw sampleState3 1 "50.0000" =
    Except.error LErr.insufficientFunds := rfl

/-! ## Lemmas about the store adapters -/

theorem getAccount_id {st : LedgerState} {id : Nat} {a : Account}
    (h : getAccount st id = some a) : a.id = id := by
  have h' : st.accounts.find? (fun a => a.id == id) = some a := h
  simpa using List.find?_some h'

theorem applyDelta_id (delta : Int) (id : Nat) (a : Account) :
    (applyDelta delta id a).id = a.id := by
  unfold applyDelta; split <;> rfl

theorem applyDelta_isSettlement (delta : Int) (id : Nat) (a : Account) :
    isSettlement (applyDelta delta id a) = isSettlement a := by
  unfold applyDelta isSettlement; split <;> rfl

theorem applyDelta_of_ne {delta : Int} {id : Nat} {a : Account}
    (h : a.id ≠ id) : applyDelta delta id a = a := by
  unfold applyDelta; simp [h]

theorem applyDelta_of_eq {delta : Int} {id : Nat} {a : Account}
    (h : a.id = id) :
    applyDelta delta id a = { a with balance := a.balance + delta } := by
  unfold applyDelta; simp [h]

theorem find?_map_applyDelta {delta : Int} {id : Nat} (p : Account → Bool)
    (hp : ∀ a, p (applyDelta delta id a) = p a) (l : List Account) :
    (l.map (applyDelta delta id)).find? p
      = (l.find? p).map (applyDelta delta id) := by
  induction l with
  | nil => rfl
  | cons a t ih =>
    cases h : p a with
    | true =>
      rw [List.map_cons, List.find?_cons_of_pos _ (by rw [hp]; exact h),
        List.find?_cons_of_pos _ h]
      rfl
    | false =>
      rw [List.map_cons, List.find?_cons_of_neg _ (by simp [hp, h]),
        List.find?_cons_of_neg _ (by simp [h]), ih]

theorem getAccount_updateAccountBalance (st : LedgerState) (delta : Int)
    (id j : Nat) :
    getAccount (updateAccountBalance st delta id) j
      = (getAccount st j).map (applyDelta delta id) := by
  unfold getAccount updateAccountBalance
  exact find?_map_applyDelta _ (fun a => by rw [applyDelta_id]) _

theorem getSettlementAccount_updateAccountBalance (st : LedgerState)
    (delta : Int) (id : Nat) :
    getSettlementAccount (updateAccountBalance st delta id)
      = (getSettlementAccount st).map (applyDelta delta id) := by
  unfold getSettlementAccount updateAccountBalance
  exact find?_map_applyDelta _ (fun a => applyDelta_isSettlement _ _ _) _

theorem decEq_scale4 (b c : Int) : decEq ⟨b, -4⟩ ⟨c, -4⟩ = true ↔ b = c := by
  simp [decEq, cmpVal]

theorem getAccount_withLockLog (st : LedgerState) (l : List Nat) (a : Nat) :
    getAccount { st with lockLog := l } a = getAccount st a := rfl

/-- Full characterization of a successful `Deposit`: the guards that must
have passed, and the exact committed state. -/
theorem deposit_ok_elim {st st' : LedgerState} {a : Nat} {s : String}
    (hok : deposit st a s = Except.ok st') :
    ∃ amount settlement account,
      validatePositiveAmount s = Except.ok amount ∧
      getSettlementAccount st = some settlement ∧
      getAccount st a = some account ∧
      account.currency = settlement.currency ∧
      0 < stringFixed4 amount ∧
      st' = { accounts :=
                (st.accounts.map (applyDelta (stringFixed4 amount) a)).map
                  (applyDelta (-(stringFixed4 amount)) settlement.id),
              entries := st.entries ++
                [⟨a, 0, stringFixed4 amount, st.nextTxId, "deposit",
                  "External deposit"⟩,
                 ⟨settlement.id, stringFixed4 amount, 0, st.nextTxId,
                  "deposit", "Deposit to account"⟩],
              nextTxId := st.nextTxId + 1,
              lockLog := st.lockLog ++ [settlement.id, account.id] } := by
  unfold deposit at hok
  cases hval : validatePositiveAmount s with
  | error e => rw [hval] at hok; simp at hok
  | ok amount =>
    rw [hval] at hok
    dsimp only at hok
    unfold getSettlementAccountForUpdate at hok
    cases hs : getSettlementAccount st with
    | none => rw [hs] at hok; simp at hok
    | some settlement =>
      rw [hs] at hok
      dsimp only at hok
      unfold getAccountForUpdate at hok
      rw [getAccount_withLockLog] at hok
      cases ha : getAccount st a with
      | none => rw [ha] at hok; simp at hok
      | some account =>
        rw [ha] at hok
        dsimp only at hok
        split at hok
        · simp at hok
        · next hcur =>
          push_neg at hcur
          split at hok
          · simp at hok
          · next st3 heq1 =>
            split at hok
            · simp at hok
            · next st4 heq2 =>
              simp only [Except.ok.injEq] at hok
              subst hok
              unfold createEntry at heq1
              split at heq1
              · next hchk1 =>
                simp only [Option.some.injEq] at heq1
                subst heq1
                unfold createEntry at heq2
                split at heq2
                · next hchk2 =>
                  simp only [Option.some.injEq] at heq2
                  subst heq2
                  refine ⟨amount, settlement, account, rfl, rfl, rfl, hcur,
                    ?_, ?_⟩
                  · have hp := hchk1.2.2
                    simp [checkSingleSide] at hp
                    exact hp
                  · simp [updateAccountBalance, List.append_assoc]
                · simp at heq2
              · simp at heq1

/-- Full characterization of a successful `Withdraw`: the guards that must
have passed (including the `InsufficientFunds` guard on the lock-read
balance), and the exact committed state. -/
theorem withdraw_ok_elim {st st' : LedgerState} {a : Nat} {s : String}
    (hok : withdraw st a s = Except.ok st') :
    ∃ amount settlement account,
      validatePositiveAmount s = Except.ok amount ∧
      getSettlementAccount st = some settlement ∧
      getAccount st a = some account ∧
      account.currency = settlement.currency ∧
      decLt ⟨account.balance, -4⟩ amount = false ∧
      0 < stringFixed4 amount ∧
      st' = { accounts :=
                (st.accounts.map (applyDelta (-(stringFixed4 amount)) a)).map
                  (applyDelta (stringFixed4 amount) settlement.id),
              entries := st.entries ++
                [⟨a, stringFixed4 amount, 0, st.nextTxId, "withdrawal",
                  "External withdrawal"⟩,
                 ⟨settlement.id, 0, stringFixed4 amount, st.nextTxId,
                  "withdrawal", "Withdrawal from"⟩],
              nextTxId := st.nextTxId + 1,
              lockLog := st.lockLog ++ [settlement.id, account.id] } := by
  unfold withdraw at hok
  cases hval : validatePositiveAmount s with
  | error e => rw [hval] at hok; simp at hok
  | ok amount =>
    rw [hval] at hok
    dsimp only at hok
    unfold getSettlementAccountForUpdate at hok
    cases hs : getSettlementAccount st with
    | none => rw [hs] at hok; simp at hok
    | some settlement =>
      rw [hs] at hok
      dsimp only at hok
      unfold getAccountForUpdate at hok
      rw [getAccount_withLockLog] at hok
      cases ha : getAccount st a with
      | none => rw [ha] at hok; simp at hok
      | some account =>
        rw [ha] at hok
        dsimp only at hok
        split at hok
        · simp at hok
        · next hcur =>
          push_neg at hcur
          split at hok
          · simp at hok
          · next hbal =>
            rw [Bool.not_eq_true] at hbal
            split at hok
            · simp at hok
            · next st3 heq1 =>
              split at hok
              · simp at hok
              · next st4 heq2 =>
                simp only [Except.ok.injEq] at hok
                subst hok
                unfold createEntry at heq1
                split at heq1
                · next hchk1 =>
                  simp only [Option.some.injEq] at heq1
                  subst heq1
                  unfold createEntry at heq2
                  split at heq2
                  · next hchk2 =>
                    simp only [Option.some.injEq] at heq2
                    subst heq2
                    refine ⟨amount, settlement, account, rfl, rfl, rfl,
                      hcur, hbal, ?_, ?_⟩
                    · have hp := hchk1.2.2
                      simp [checkSingleSide] at hp
                      exact hp
                    · simp [updateAccountBalance, List.append_assoc]
                  · simp at heq2
                · simp at heq1

/-- Full characterization of a successful `Transfer`: the guards that must
have passed, and the exact committed state (the source account is
lock-read first, then the destination). -/
theorem transfer_ok_elim {st st' : LedgerState} {fromID toID : Nat}
    {s : String} (hok : transfer st fromID toID s = Except.ok st') :
    ∃ amount fromAcc toAcc,
      validatePositiveAmount s = Except.ok amount ∧
      fromID ≠ toID ∧
      getAccount st fromID = some fromAcc ∧
      getAccount st toID = some toAcc ∧
      fromAcc.currency = toAcc.currency ∧
      decLt ⟨fromAcc.balance, -4⟩ amount = false ∧
      0 < stringFixed4 amount ∧
      st' = { accounts :=
                (st.accounts.map
                  (applyDelta (-(stringFixed4 amount)) fromID)).map
                  (applyDelta (stringFixed4 amount) toID),
              entries := st.entries ++
                [⟨fromID, stringFixed4 amount, 0, st.nextTxId, "transfer",
                  "Transfer to"⟩,
                 ⟨toID, 0, stringFixed4 amount, st.nextTxId, "transfer",
                  "Transfer from"⟩],
              nextTxId := st.nextTxId + 1,
              lockLog := st.lockLog ++ [fromAcc.id, toAcc.id] } := by
  unfold transfer at hok
  cases hval : validatePositiveAmount s with
  | error e => rw [hval] at hok; simp at hok
  | ok amount =>
    rw [hval] at hok
    dsimp only at hok
    split at hok
    · simp at hok
    · next hne =>
      unfold getAccountForUpdate at hok
      cases hfrom : getAccount st fromID with
      | none => rw [hfrom] at hok; simp at hok
      | some fromAcc =>
        rw [hfrom] at hok
        dsimp only at hok
        rw [getAccount_withLockLog] at hok
        cases hto : getAccount st toID with
        | none => rw [hto] at hok; simp at hok
        | some toAcc =>
          rw [hto] at hok
          dsimp only at hok
          split at hok
          · simp at hok
          · next hcur =>
            push_neg at hcur
            split at hok
            · simp at hok
            · next hbal =>
              rw [Bool.not_eq_true] at hbal
              split at hok
              · simp at hok
              · next st3 heq1 =>
                split at hok
                · simp at hok
                · next st4 heq2 =>
                  simp only [Except.ok.injEq] at hok
                  subst hok
                  unfold createEntry at heq1
                  split at heq1
                  · next hchk1 =>
                    simp only [Option.some.injEq] at heq1
                    subst heq1
                    unfold createEntry at heq2
                    split at heq2
                    · next hchk2 =>
                      simp only [Option.some.injEq] at heq2
                      subst heq2
                      refine ⟨amount, fromAcc, toAcc, rfl, hne, rfl, rfl,
                        hcur, hbal, ?_, ?_⟩
                      · have hp := hchk1.2.2
                        simp [checkSingleSide] at hp
                        exact hp
                      · simp [updateAccountBalance, List.append_assoc]
                    · simp at heq2
                  · simp at heq1

/-- Reading back the account `j` after the two balance-delta updates of one
operation (first `δ1` on `j`, then `δ2` on a different account `i2`). -/
theorem getAccount_after_deltas {st : LedgerState} {j i2 : Nat}
    {account : Account} (ha : getAccount st j = some account)
    (δ1 δ2 : Int) (hne : j ≠ i2) (E : List Entry) (n : Nat) (l : List Nat) :
    getAccount
        ⟨(st.accounts.map (applyDelta δ1 j)).map (applyDelta δ2 i2), E, n, l⟩
        j
      = some { account with balance := account.balance + δ1 } := by
  have hacc : account.id = j := getAccount_id ha
  unfold getAccount
  dsimp only
  rw [find?_map_applyDelta _ (fun x => by rw [applyDelta_id]),
    find?_map_applyDelta _ (fun x => by rw [applyDelta_id])]
  have ha' : st.accounts.find? (fun x => x.id == j) = some account := ha
  rw [ha']
  simp only [Option.map_some']
  rw [applyDelta_of_eq hacc,
    applyDelta_of_ne
      (show ({ account with balance := account.balance + δ1 } : Account).id
          ≠ i2 from by rw [show ({ account with
            balance := account.balance + δ1 } : Account).id
            = account.id from rfl, hacc]; exact hne)]

/-- Reading back the settlement account after the two balance-delta updates
of one operation (first `δ1` on a different account `j`, then `δ2` on the
settlement row). -/
theorem getSettlement_after_deltas {st : LedgerState} {settlement : Account}
    (hs : getSettlementAccount st = some settlement) (δ1 δ2 : Int) (j : Nat)
    (hne : settlement.id ≠ j) (E : List Entry) (n : Nat) (l : List Nat) :
    getSettlementAccount
        ⟨(st.accounts.map (applyDelta δ1 j)).map
          (applyDelta δ2 settlement.id), E, n, l⟩
      = some { settlement with balance := settlement.balance + δ2 } := by
  unfold getSettlementAccount
  dsimp only
  rw [find?_map_applyDelta _ (fun x => applyDelta_isSettlement _ _ _),
    find?_map_applyDelta _ (fun x => applyDelta_isSettlement _ _ _)]
  have hs' : st.accounts.find? isSettlement = some settlement := hs
  rw [hs']
  simp only [Option.map_some']
  rw [applyDelta_of_ne hne, applyDelta_of_eq rfl]

/-- Claim C1: for every successful `Deposit(a, x)` (with `a` a user account
distinct from the settlement row, and a transaction-group counter not yet
used by existing entries, as `uuid.New()` guarantees): the stored balance
of `a` increases by exactly the recorded scale-4 amount, the settlement
balance decreases by exactly that amount, and exactly two entries are
appended — a credit on `a` and a debit on settlement — both tagged with the
same fresh transaction-group id and operation type `deposit`, the group's
debit sum equalling its credit sum. For an input within the documented
4-fractional-digit interface, `stringFixed4` is the identity on the
amount, so the delta is exactly the requested x. -/
theorem deposit_balances_and_entries
    (st st' : LedgerState) (a : Nat) (s : String)
    (settlement account : Account)
    (hs : getSettlementAccount st = some settlement)
    (ha : getAccount st a = some account)
    (hneq : a ≠ settlement.id)
    (hfresh : ∀ e ∈ st.entries, e.transactionId ≠ st.nextTxId)
    (hok : deposit st a s = Except.ok st') :
    ∃ amount, validatePositiveAmount s = Except.ok amount ∧
      st'.entries = st.entries ++
        [⟨a, 0, stringFixed4 amount, st.nextTxId, "deposit",
          "External deposit"⟩,
         ⟨settlement.id, stringFixed4 amount, 0, st.nextTxId, "deposit",
          "Deposit to account"⟩] ∧
      getAccount st' a = some { account with
        balance := account.balance + stringFixed4 amount } ∧
      getSettlementAccount st' = some { settlement with
        balance := settlement.balance - stringFixed4 amount } ∧
      st'.entries.filter (fun e => e.transactionId == st.nextTxId)
        = [⟨a, 0, stringFixed4 amount, st.nextTxId, "deposit",
            "External deposit"⟩,
           ⟨settlement.id, stringFixed4 amount, 0, st.nextTxId, "deposit",
            "Deposit to account"⟩] ∧
      groupDebitSum st' st.nextTxId = stringFixed4 amount ∧
      groupCreditSum st' st.nextTxId = stringFixed4 amount := by
  obtain ⟨amount, settlement0, account0, hval, hs0, ha0, hcur, hx, hst⟩ :=
    deposit_ok_elim hok
  rw [hs] at hs0
  rw [ha] at ha0
  injection hs0 with hs0
  injection ha0 with ha0
  subst hs0
  subst ha0
  subst hst
  refine ⟨amount, hval, rfl, ?_, ?_, ?_, ?_, ?_⟩
  · exact getAccount_after_deltas ha (stringFixed4 amount)
      (-(stringFixed4 amount)) hneq _ _ _
  · rw [getSettlement_after_deltas hs (stringFixed4 amount)
      (-(stringFixed4 amount)) a (fun h => hneq h.symm) _ _ _]
    simp [sub_eq_add_neg]
  · dsimp only
    rw [List.filter_append,
      List.filter_eq_nil_iff.mpr (fun e he => by
        simp only [beq_iff_eq]
        exact fun hc => hfresh e he hc)]
    simp
  · unfold groupDebitSum
    dsimp only
    rw [List.filter_append,
      List.filter_eq_nil_iff.mpr (fun e he => by
        simp only [beq_iff_eq]
        exact fun hc => hfresh e he hc)]
    simp
  · unfold groupCreditSum
    dsimp only
    rw [List.filter_append,
      List.filter_eq_nil_iff.mpr (fun e he => by
        simp only [beq_iff_eq]
        exact fun hc => hfresh e he hc)]
    simp

/-- Witness for C1 at a concrete input: depositing "100.0000" into the
sample state moves the user balance to 100.0000 and the settlement balance
to -100.0000 (spec scenario: deposit into a fresh NGN account). -/
theorem deposit_balances_and_entries_witness :
    getAccount
        ⟨[⟨0, none, "Settlement Account", -1000000, "NGN", true⟩,
          ⟨1, some 7, "Alice", 1000000, "NGN", false⟩],
         [⟨1, 0, 1000000, 0, "deposit", "External deposit"⟩,
          ⟨0, 1000000, 0, 0, "deposit", "Deposit to account"⟩], 1, [0, 1]⟩ 1
      = some ⟨1, some 7, "Alice", 1000000, "NGN", false⟩ ∧
    getSettlementAccount
        ⟨[⟨0, none, "Settlement Account", -1000000, "NGN", true⟩,
          ⟨1, some 7, "Alice", 1000000, "NGN", false⟩],
         [⟨1, 0, 1000000, 0, "deposit", "External deposit"⟩,
          ⟨0, 1000000, 0, 0, "deposit", "Deposit to account"⟩], 1, [0, 1]⟩
      = some ⟨0, none, "Settlement Account", -1000000, "NGN", true⟩ := by
  have hsv : getSettlementAccount sampleState
      = some ⟨0, none, "Settlement Account", 0, "NGN", true⟩ := rfl
  have hav : getAccount sampleState 1
      = some ⟨1, some 7, "Alice", 0, "NGN", false⟩ := rfl
  have hok : deposit sampleState 1 "100.0000" = Except.ok
      ⟨[⟨0, none, "Settlement Account", -1000000, "NGN", true⟩,
        ⟨1, some 7, "Alice", 1000000, "NGN", false⟩],
       [⟨1, 0, 1000000, 0, "deposit", "External deposit"⟩,
        ⟨0, 1000000, 0, 0, "deposit", "Deposit to account"⟩], 1, [0, 1]⟩ :=
    rfl
  obtain ⟨amount, hval, hent, hacc, hsett, hfil, hd, hc⟩ :=
    deposit_balances_and_entries sampleState _ 1 "100.0000" _ _
      hsv hav (by decide) (by simp [sampleState]) hok
  have h1 : validatePositiveAmount "100.0000" = Except.ok ⟨1000000, -4⟩ := rfl
  rw [h1] at hval
  injection hval with hval
  subst hval
  exact ⟨by rw [hacc]; decide, by rw [hsett]; decide⟩

/-- Claim C2: with the settlement and target accounts present and the
currencies matching: if the lock-read pre-balance of `a` is numerically
less than the amount, Withdraw fails with `InsufficientFunds` — the guard
fires before any entry write, and the transaction rollback leaves every
balance unchanged (an error result leaves the caller's state as it was);
otherwise every successful Withdraw leaves post-balance(a) =
pre-balance(a) − x and the settlement balance increased by x (x being the
recorded scale-4 amount, equal to the requested amount for inputs within
the 4-digit interface), appending exactly the two withdrawal entries. -/
theorem withdraw_insufficient_and_success
    (st : LedgerState) (a : Nat) (s : String) (amount : Dec)
    (settlement account : Account)
    (hval : validatePositiveAmount s = Except.ok amount)
    (hs : getSettlementAccount st = some settlement)
    (ha : getAccount st a = some account)
    (hcur : account.currency = settlement.currency)
    (hneq : a ≠ settlement.id) :
    (decLt ⟨account.balance, -4⟩ amount = true →
      withdraw st a s = Except.error LErr.insufficientFunds) ∧
    (∀ st', withdraw st a s = Except.ok st' →
      decLt ⟨account.balance, -4⟩ amount = false ∧
      getAccount st' a = some { account with
        balance := account.balance - stringFixed4 amount } ∧
      getSettlementAccount st' = some { settlement with
        balance := settlement.balance + stringFixed4 amount } ∧
      st'.entries = st.entries ++
        [⟨a, stringFixed4 amount, 0, st.nextTxId, "withdrawal",
          "External withdrawal"⟩,
         ⟨settlement.id, 0, stringFixed4 amount, st.nextTxId, "withdrawal",
          "Withdrawal from"⟩]) := by
  constructor
  · intro hlt
    unfold withdraw
    rw [hval]
    dsimp only
    unfold getSettlementAccountForUpdate
    rw [hs]
    dsimp only
    unfold getAccountForUpdate
    rw [getAccount_withLockLog, ha]
    dsimp only
    rw [if_neg (by simp [hcur]), if_pos hlt]
  · intro st' hok
    obtain ⟨amount0, settlement0, account0, hval0, hs0, ha0, hcur0, hbal,
      hx, hst⟩ := withdraw_ok_elim hok
    rw [hval] at hval0
    rw [hs] at hs0
    rw [ha] at ha0
    injection hval0 with hval0
    injection hs0 with hs0
    injection ha0 with ha0
    subst hval0
    subst hs0
    subst ha0
    subst hst
    refine ⟨hbal, ?_, ?_, rfl⟩
    · rw [getAccount_after_deltas ha (-(stringFixed4 amount))
        (stringFixed4 amount) hneq _ _ _]
      simp [sub_eq_add_neg]
    · exact getSettlement_after_deltas hs (-(stringFixed4 amount))
        (stringFixed4 amount) a (fun h => hneq h.symm) _ _ _

/-- Witness for C2 at a concrete input (spec scenario): withdrawing
"50.0000" from a 30.0000 balance fails with `InsufficientFunds`. -/
theorem withdraw_insufficient_and_success_witness :
    withdraw sampleState3 1 "50.0000" = Except.error LErr.insufficientFunds :=
  (withdraw_insufficient_and_success sampleState3 1 "50.0000" ⟨500000, -4⟩
    ⟨0, none, "Settlement Account", -50000, "NGN", true⟩
    ⟨1, some 7, "Alice", 300000, "NGN", false⟩
    rfl rfl rfl rfl (by decide)).1 rfl

/-- Constructive form of a deposit run: when the two accounts are present,
the currencies match and the recorded scale-4 amount is positive, Deposit
commits and produces exactly this state. -/
theorem deposit_ok_intro
    {st : LedgerState} {a : Nat} {s : String} {amount : Dec}
    {settlement account : Account}
    (hval : validatePositiveAmount s = Except.ok amount)
    (hs : getSettlementAccount st = some settlement)
    (ha : getAccount st a = some account)
    (hcur : account.currency = settlement.currency)
    (hx : 0 < stringFixed4 amount) :
    deposit st a s = Except.ok
      { accounts :=
          (st.accounts.map (applyDelta (stringFixed4 amount) a)).map
            (applyDelta (-(stringFixed4 amount)) settlement.id),
        entries := st.entries ++
          [⟨a, 0, stringFixed4 amount, st.nextTxId, "deposit",
            "External deposit"⟩,
           ⟨settlement.id, stringFixed4 amount, 0, st.nextTxId, "deposit",
            "Deposit to account"⟩],
        nextTxId := st.nextTxId + 1,
        lockLog := st.lockLog ++ [settlement.id, account.id] } := by
  unfold deposit
  rw [hval]
  dsimp only
  unfold getSettlementAccountForUpdate
  rw [hs]
  dsimp only
  unfold getAccountForUpdate
  rw [getAccount_withLockLog, ha]
  dsimp only
  rw [if_neg (by simp [hcur])]
  unfold createEntry
  rw [if_pos ⟨le_refl 0, le_of_lt hx, by simp [checkSingleSide]; exact hx⟩]
  dsimp only
  rw [if_pos ⟨le_of_lt hx, le_refl 0, by simp [checkSingleSide]; exact hx⟩]
  dsimp only
  simp [updateAccountBalance, List.append_assoc]

/-- Claim C10: Deposit performs no minimum-balance check on the settlement
account: for any settlement balance b — zero or negative included — and
any validated amount with positive scale-4 recording x, Deposit succeeds
and leaves the settlement balance at b − x, so the settlement balance can
become arbitrarily negative; only user-account balances are ever guarded
by `InsufficientFunds` (in Withdraw and Transfer). -/
theorem deposit_no_settlement_floor
    (st : LedgerState) (a : Nat) (s : String) (amount : Dec)
    (settlement account : Account)
    (hval : validatePositiveAmount s = Except.ok amount)
    (hs : getSettlementAccount st = some settlement)
    (ha : getAccount st a = some account)
    (hcur : account.currency = settlement.currency)
    (hneq : a ≠ settlement.id)
    (hx : 0 < stringFixed4 amount) :
    ∃ st', deposit st a s = Except.ok st' ∧
      getSettlementAccount st' = some { settlement with
        balance := settlement.balance - stringFixed4 amount } := by
  refine ⟨_, deposit_ok_intro hval hs ha hcur hx, ?_⟩
  rw [getSettlement_after_deltas hs (stringFixed4 amount)
    (-(stringFixed4 amount)) a (fun h => hneq h.symm) _ _ _]
  simp [sub_eq_add_neg]

/-- Witness for C10 at a concrete input: with the settlement balance
already negative (-5.0000), depositing "2.5" succeeds and drives it to
-7.5000. -/
theorem deposit_no_settlement_floor_witness :
    getSettlementAccount
        ⟨[⟨0, none, "Settlement Account", -75000, "NGN", true⟩,
          ⟨1, some 7, "Alice", 325000, "NGN", false⟩,
          ⟨2, some 8, "Bob", 100000, "NGN", false⟩],
         [⟨1, 0, 25000, 5, "deposit", "External deposit"⟩,
          ⟨0, 25000, 0, 5, "deposit", "Deposit to account"⟩], 6, [0, 1]⟩
      = some ⟨0, none, "Settlement Account", -75000, "NGN", true⟩ := by
  obtain ⟨st', hok, hsett⟩ :=
    deposit_no_settlement_floor sampleState3 1 "2.5" ⟨25, -1⟩
      ⟨0, none, "Settlement Account", -50000, "NGN", true⟩
      ⟨1, some 7, "Alice", 300000, "NGN", false⟩
      rfl rfl rfl rfl (by decide) (by decide)
  have he : deposit sampleState3 1 "2.5" = Except.ok
      ⟨[⟨0, none, "Settlement Account", -75000, "NGN", true⟩,
        ⟨1, some 7, "Alice", 325000, "NGN", false⟩,
        ⟨2, some 8, "Bob", 100000, "NGN", false⟩],
       [⟨1, 0, 25000, 5, "deposit", "External deposit"⟩,
        ⟨0, 25000, 0, 5, "deposit", "Deposit to account"⟩], 6, [0, 1]⟩ := rfl
  rw [hok] at he
  injection he with he
  rw [← he, hsett]
  decide

/-- Claim C9: amount validation does not enforce the 4-fractional-digit
limit — every string that parses to a positive decimal is accepted
regardless of precision — and the engine then records the amount in the
ledger entries rounded to 4 fractional digits (`StringFixed(4)`), so
over-precise inputs succeed instead of being rejected: depositing
"1.00005" succeeds, both entries recording 1.0001. -/
theorem validate_accepts_overprecise_deposit_rounds :
    (∀ s d, newFromString s = some d → decLe d decZero = false →
      validatePositiveAmount s = Except.ok d) ∧
    validatePositiveAmount "1.00005" = Except.ok ⟨100005, -5⟩ ∧
    (deposit sampleState 1 "1.00005").map LedgerState.entries
      = Except.ok
        [⟨1, 0, 10001, 0, "deposit", "External deposit"⟩,
         ⟨0, 10001, 0, 0, "deposit", "Deposit to account"⟩] := by
  refine ⟨fun s d hparse hpos => ?_, rfl, rfl⟩
  unfold validatePositiveAmount
  rw [hparse]
  simp [hpos]

/-- Witness for C9 at a concrete input: the 5-fractional-digit string
"1.00005" passes validation unmodified. -/
theorem validate_accepts_overprecise_witness :
    validatePositiveAmount "1.00005" = Except.ok ⟨100005, -5⟩ :=
  validate_accepts_overprecise_deposit_rounds.1 "1.00005" ⟨100005, -5⟩
    rfl rfl

/-- Claim C6 (amended): for every successful `Transfer(fromID, toID, x)`
the two `FOR UPDATE` lock-reads are issued in source-then-destination
order — a deterministic order that follows the transfer's roles, not a
fixed global order on the account identifiers. -/
theorem transfer_locks_source_then_destination
    (st st' : LedgerState) (fromID toID : Nat) (s : String)
    (hok : transfer st fromID toID s = Except.ok st') :
    st'.lockLog = st.lockLog ++ [fromID, toID] := by
  obtain ⟨amount, fromAcc, toAcc, hval, hne, hfrom, hto, hcur, hbal, hx,
    hst⟩ := transfer_ok_elim hok
  subst hst
  dsimp only
  rw [getAccount_id hfrom, getAccount_id hto]

/-- Witness for C6 (amended) at a concrete input: transferring 1 → 2 in
the sample state records the lock sequence [1, 2]. -/
theorem transfer_locks_source_then_destination_witness :
    (⟨[⟨0, none, "Settlement Account", -50000, "NGN", true⟩,
       ⟨1, some 7, "Alice", 200000, "NGN", false⟩,
       ⟨2, some 8, "Bob", 200000, "NGN", false⟩],
      [⟨1, 100000, 0, 5, "transfer", "Transfer to"⟩,
       ⟨2, 0, 100000, 5, "transfer", "Transfer from"⟩], 6,
      [1, 2]⟩ : LedgerState).lockLog
      = sampleState3.lockLog ++ [1, 2] :=
  transfer_locks_source_then_destination sampleState3 _ 1 2 "10.0000" rfl

/-- Claim C3: `validatePositiveAmount` fails with `InvalidAmount` exactly
when the input does not parse under `decimal.NewFromString` or the parsed
value is `LessThanOrEqual` zero; in particular the empty string, a lone
leading sign, and the zero representations "0", "0.00", "0.0000" are all
rejected with the same `InvalidAmount` error. The Go function is pure
(it only parses its argument), so validation has no side effects, which the
embedding reflects by being a plain function of the input string. -/
theorem validate_invalid_iff :
    (∀ s : String,
      validatePositiveAmount s = Except.error LErr.invalidAmount ↔
        (newFromString s = none ∨
          ∃ d, newFromString s = some d ∧ decLe d decZero = true)) ∧
    validatePositiveAmount "" = Except.error LErr.invalidAmount ∧
    validatePositiveAmount "-" = Except.error LErr.invalidAmount ∧
    validatePositiveAmount "0" = Except.error LErr.invalidAmount ∧
    validatePositiveAmount "0.00" = Except.error LErr.invalidAmount ∧
    validatePositiveAmount "0.0000" = Except.error LErr.invalidAmount := by
  refine ⟨fun s => ?_, rfl, rfl, rfl, rfl, rfl⟩
  unfold validatePositiveAmount
  cases h : newFromString s with
  | none => simp
  | some d =>
    cases hle : decLe d decZero with
    | true => simp [hle]
    | false => simp [hle]

/-- Witness for C3 at a concrete input: a non-numeric string is rejected. -/
theorem validate_invalid_iff_witness :
    validatePositiveAmount "abc" = Except.error LErr.invalidAmount :=
  (validate_invalid_iff.1 "abc").mpr (Or.inl rfl)

/-- Claim C8: for every `ExecTx` invocation whose `BeginTx` succeeds,
exactly one of commit and rollback is invoked; a function error `e` leads
to a rollback and is propagated as-is (or combined with a failing
rollback's error), and on function success the transaction is committed,
any commit failure surfacing as the distinct `commitFailed` kind. -/
theorem execTx_exactly_one_outcome
    (fnErr rollbackErr commitErr : Option Nat) :
    ((execTx none fnErr rollbackErr commitErr).commitCalled = true ↔
      (execTx none fnErr rollbackErr commitErr).rollbackCalled = false) ∧
    (∀ e, fnErr = some e →
      (execTx none fnErr rollbackErr commitErr).rollbackCalled = true ∧
      (execTx none fnErr rollbackErr commitErr).commitCalled = false ∧
      (rollbackErr = none →
        (execTx none fnErr rollbackErr commitErr).err
          = some (TxErr.fnFailed e)) ∧
      (∀ rb, rollbackErr = some rb →
        (execTx none fnErr rollbackErr commitErr).err
          = some (TxErr.fnAndRollbackFailed e rb))) ∧
    (fnErr = none →
      (execTx none fnErr rollbackErr commitErr).commitCalled = true ∧
      (execTx none fnErr rollbackErr commitErr).rollbackCalled = false ∧
      (commitErr = none → (execTx none fnErr rollbackErr commitErr).err = none) ∧
      (∀ c, commitErr = some c →
        (execTx none fnErr rollbackErr commitErr).err
          = some (TxErr.commitFailed c))) := by
  cases fnErr <;> cases rollbackErr <;> cases commitErr <;>
    simp [execTx]

/-- Witness for C8: concrete run where the function fails with error 3 and
rollback succeeds — rollback is invoked and the original error propagates. -/
theorem execTx_exactly_one_outcome_witness :
    (execTx none (some 3) none none).rollbackCalled = true ∧
    (execTx none (some 3) none none).commitCalled = false ∧
    (execTx none (some 3) none none).err = some (TxErr.fnFailed 3) := by
  have h := execTx_exactly_one_outcome (some 3) none none
  exact ⟨(h.2.1 3 rfl).1, (h.2.1 3 rfl).2.1, (h.2.1 3 rfl).2.2.1 rfl⟩

/-- Counterexample to claim C4 as stated: on a state whose stored balance
(5.0000) differs from the entry-derived balance (3.0000),
`ReconcileAccount` does not return a structured non-error `matched=false`
result — it returns `false` together with an error (the Go code does
`return false, fmt.Errorf("balance mismatch: stored %s, calculated %s", ...)`),
which the HTTP layer surfaces as a 500 instead of a 200 diagnostic. -/
theorem reconcile_mismatch_returns_error_cex :
    reconcileAccount mismatchState 1
      = (false, some (LErr.balanceMismatch 50000 30000)) ∧
    (reconcileAccount mismatchState 1).2 ≠ none := by
  exact ⟨rfl, by decide⟩

/-- Claim C4 (amended): `ReconcileAccount` reads the stored balance,
independently computes SUM(credit) − SUM(debit) over the account's
entries, compares the two as decimals for exact equality, and returns
`matched=true` iff they are exactly equal; on inequality it returns
`matched=false` together with an **error** that reports both the stored
and the computed value (rather than a structured non-error result). -/
theorem reconcile_matched_iff_equal (st : LedgerState) (a : Nat)
    (account : Account) (h : getAccount st a = some account) :
    (reconcileAccount st a = (true, none) ↔
      account.balance = calculatedBalance st a) ∧
    (account.balance ≠ calculatedBalance st a →
      reconcileAccount st a
        = (false, some (LErr.balanceMismatch account.balance
            (calculatedBalance st a)))) := by
  unfold reconcileAccount
  rw [h]
  cases hd : decEq ⟨account.balance, -4⟩ ⟨calculatedBalance st a, -4⟩ with
  | true =>
    have he : account.balance = calculatedBalance st a :=
      (decEq_scale4 _ _).mp hd
    have hd2 : decEq ⟨calculatedBalance st a, -4⟩
        ⟨calculatedBalance st a, -4⟩ = true := (decEq_scale4 _ _).mpr rfl
    simp [hd2, he]
  | false =>
    have he : account.balance ≠ calculatedBalance st a := by
      intro hc
      rw [(decEq_scale4 account.balance (calculatedBalance st a)).mpr hc]
        at hd
      exact Bool.true_eq_false.mp hd
    simp [hd, he]

/-- Witness for C4 (amended) at a concrete input: on `mismatchState` the
stored and computed balances differ, so reconciliation reports the
mismatch error with both values. -/
theorem reconcile_matched_iff_equal_witness :
    reconcileAccount mismatchState 1
      = (false, some (LErr.balanceMismatch 50000 30000)) := by
  have h := reconcile_matched_iff_equal mismatchState 1
    ⟨1, some 7, "Alice", 50000, "NGN", false⟩ rfl
  exact h.2 (by decide)

/-- Claim C5: for every state, account and validated (positive) amount,
`Transfer(a, a, x)` fails with `SameAccountTransfer`. The guard runs
before the transaction is even opened, so no entries are created and no
balance changes (an error leaves the caller's state unchanged). -/
theorem transfer_same_account_rejected (st : LedgerState) (a : Nat)
    (s : String) (amount : Dec)
    (hval : validatePositiveAmount s = Except.ok amount) :
    transfer st a a s = Except.error LErr.sameAccountTransfer := by
  unfold transfer
  rw [hval]
  simp

/-- Witness for C5 at a concrete input. -/
theorem transfer_same_account_rejected_witness :
    transfer sampleState3 1 1 "10.0000"
      = Except.error LErr.sameAccountTransfer :=
  transfer_same_account_rejected sampleState3 1 "10.0000" ⟨100000, -4⟩ rfl

/-- Counterexample to claim C6 as stated: the two lock-reads of Transfer
are **not** issued in a fixed identifier-determined global order.
Transferring 1 → 2 lock-reads account 1 first, transferring 2 → 1
lock-reads account 2 first: the order follows the source/destination
roles, so two opposite-direction transfers over the same account pair
acquire the row locks in opposite orders. -/
theorem transfer_lock_order_direction_cex :
    (transfer sampleState3 1 2 "10.0000").map LedgerState.lockLog
      = Except.ok [1, 2] ∧
    (transfer sampleState3 2 1 "10.0000").map LedgerState.lockLog
      = Except.ok [2, 1] ∧
    ([1, 2] : List Nat) ≠ [2, 1] := by
  exact ⟨rfl, rfl, by decide⟩

/-- Appending one balanced pair of entries (same transaction-group id,
debit total = credit total) preserves the per-group balancing invariant. -/
theorem group_balance_append_pair
    {st : LedgerState} (ih : ∀ t, groupDebitSum st t = groupCreditSum st t)
    (accounts : List Account) (n : Nat) (log : List Nat) (e1 e2 : Entry)
    (htx : e1.transactionId = e2.transactionId)
    (hbal : e1.debit + e2.debit = e1.credit + e2.credit) (t : Nat) :
    groupDebitSum ⟨accounts, st.entries ++ [e1, e2], n, log⟩ t
      = groupCreditSum ⟨accounts, st.entries ++ [e1, e2], n, log⟩ t := by
  have hih := ih t
  unfold groupDebitSum groupCreditSum at hih ⊢
  dsimp only
  simp only [List.filter_append, List.map_append, List.sum_append]
  rw [hih]
  have hb2 : (e2.transactionId == t) = (e1.transactionId == t) := by
    rw [htx]
  congr 1
  cases hb : e1.transactionId == t with
  | true => simp [List.filter_cons, hb, hb2]; omega
  | false => simp [List.filter_cons, hb, hb2]

/-- Claim C7: in every reachable state (any initial accounts with an empty
entry log, closed under Deposit, Withdraw and Transfer), every entry is
single-sided — exactly one of debit and credit strictly positive, the
other exactly zero, as the `check_single_side` constraint demands — and
for every transaction-group id the sum of debit amounts over its entries
equals the sum of credit amounts. -/
theorem reachable_entries_single_sided_and_balanced (st : LedgerState)
    (h : Reachable st) :
    (∀ e ∈ st.entries, singleSided e) ∧
    (∀ t, groupDebitSum st t = groupCreditSum st t) := by
  induction h with
  | init accounts nextTxId =>
    constructor
    · intro e he
      simp at he
    · intro t
      unfold groupDebitSum groupCreditSum
      simp
  | step_deposit hr hok ih =>
    obtain ⟨amount, settlement, account, hval, hs, ha, hcur, hx, hst⟩ :=
      deposit_ok_elim hok
    subst hst
    constructor
    · intro e he
      dsimp only at he
      rw [List.mem_append] at he
      rcases he with he | he
      · exact ih.1 e he
      · simp only [List.mem_cons, List.mem_singleton] at he
        rcases he with rfl | rfl | he
        · exact Or.inr ⟨rfl, hx⟩
        · exact Or.inl ⟨hx, rfl⟩
        · cases he
    · intro t
      refine group_balance_append_pair ih.2 _ _ _ _ _ ?_ ?_ t
      · rfl
      · dsimp only
        omega
  | step_withdraw hr hok ih =>
    obtain ⟨amount, settlement, account, hval, hs, ha, hcur, hbal, hx, hst⟩ :=
      withdraw_ok_elim hok
    subst hst
    constructor
    · intro e he
      dsimp only at he
      rw [List.mem_append] at he
      rcases he with he | he
      · exact ih.1 e he
      · simp only [List.mem_cons, List.mem_singleton] at he
        rcases he with rfl | rfl | he
        · exact Or.inl ⟨hx, rfl⟩
        · exact Or.inr ⟨rfl, hx⟩
        · cases he
    · intro t
      refine group_balance_append_pair ih.2 _ _ _ _ _ ?_ ?_ t
      · rfl
      · dsimp only
        omega
  | step_transfer hr hok ih =>
    obtain ⟨amount, fromAcc, toAcc, hval, hne, hfrom, hto, hcur, hbal, hx,
      hst⟩ := transfer_ok_elim hok
    subst hst
    constructor
    · intro e he
      dsimp only at he
      rw [List.mem_append] at he
      rcases he with he | he
      · exact ih.1 e he
      · simp only [List.mem_cons, List.mem_singleton] at he
        rcases he with rfl | rfl | he
        · exact Or.inl ⟨hx, rfl⟩
        · exact Or.inr ⟨rfl, hx⟩
        · cases he
    · intro t
      refine group_balance_append_pair ih.2 _ _ _ _ _ ?_ ?_ t
      · rfl
      · dsimp only
        omega

/-- Witness for C7 at a concrete input: the state reached by depositing
"100.0000" into the sample state has its single deposit group (id 0)
balanced. -/
theorem reachable_entries_witness :
    groupDebitSum
        ⟨[⟨0, none, "Settlement Account", -1000000, "NGN", true⟩,
          ⟨1, some 7, "Alice", 1000000, "NGN", false⟩],
         [⟨1, 0, 1000000, 0, "deposit", "External deposit"⟩,
          ⟨0, 1000000, 0, 0, "deposit", "Deposit to account"⟩], 1, [0, 1]⟩ 0
      = groupCreditSum
        ⟨[⟨0, none, "Settlement Account", -1000000, "NGN", true⟩,
          ⟨1, some 7, "Alice", 1000000, "NGN", false⟩],
         [⟨1, 0, 1000000, 0, "deposit", "External deposit"⟩,
          ⟨0, 1000000, 0, 0, "deposit", "Deposit to account"⟩], 1, [0, 1]⟩ 0 := by
  have hok : deposit
      ⟨[⟨0, none, "Settlement Account", 0, "NGN", true⟩,
        ⟨1, some 7, "Alice", 0, "NGN", false⟩], [], 0, []⟩ 1 "100.0000"
      = Except.ok
      ⟨[⟨0, none, "Settlement Account", -1000000, "NGN", true⟩,
        ⟨1, some 7, "Alice", 1000000, "NGN", false⟩],
       [⟨1, 0, 1000000, 0, "deposit", "External deposit"⟩,
        ⟨0, 1000000, 0, 0, "deposit", "Deposit to account"⟩], 1, [0, 1]⟩ :=
    rfl
  exact (reachable_entries_single_sided_and_balanced _
    (Reachable.step_deposit (Reachable.init _ _) hok)).2 0

end DoubleEntry
